import Mathlib

/-!
Verification development for the ai-cmds review orchestration engine.

The definitions below are a shallow embedding of the TypeScript sources:

* `src/commands/review-pr/review-pr.ts` (provider-queue pipeline): task
  grouping, `isValidConcurrencyLimit`, `validateConcurrencyPerProvider`,
  `reviewerSortOrder`, the provider-queue result mapping, the empty-diff
  short-circuit and the zero-success gate;
* `src/commands/shared/reviewer.ts`: `normalizeValidatedIssues`,
  `runPreviousReviewCheck`'s sentinel handling, `reviewValidator`'s result;
* `src/commands/shared/diff-utils.ts`: `compactDiff`;
* `src/commands/review-code-changes/review-code-changes.ts`
  (`runLocalReviewChangesWorkflow`): the oversized-diff confirmation gate;
* `src/commands/shared/output.ts`: `createZeroTokenUsage`.

JavaScript semantics used by that code (string `toLowerCase`, `trim`,
`includes`, the stable `Array.prototype.sort`, `Number.isInteger`) are
modelled explicitly.  The external async queue (`@ls-stack/utils/asyncQueue`)
is modelled by its contract: each submitted task either fulfills with a value
or rejects with an error; `queue.completions` collects the fulfilled values
with their metadata and `queue.failures` the rejections.  `showErrorAndExit`
and `process.exit(1)` are modelled as error results that abort the run.
-/

/-! ## JavaScript string primitives -/

/-- JS `String.prototype.toLowerCase`, character by character. -/
def jsToLower (s : String) : String := ⟨s.data.map Char.toLower⟩

/-- JS `String.prototype.trim`: strip whitespace from both ends. -/
def jsTrim (s : String) : String :=
  ⟨((s.data.dropWhile Char.isWhitespace).reverse.dropWhile Char.isWhitespace).reverse⟩

/-- Helper for `jsIncludes`: does `needle` occur as a contiguous segment? -/
def listContainsSeg (needle : List Char) : List Char → Bool
  | [] => needle.isEmpty
  | c :: rest => needle.isPrefixOf (c :: rest) || listContainsSeg needle rest

/-- JS `String.prototype.includes`: contiguous substring test. -/
def jsIncludes (hay needle : String) : Bool := listContainsSeg needle.data hay.data

/-! ## Data model (src/commands/shared/types.ts) -/

/-- `TokenUsage` from types.ts.  `reasoningTokens` is `number | undefined`. -/
structure TokenUsage where
  promptTokens : Nat
  completionTokens : Nat
  totalTokens : Nat
  reasoningTokens : Option Nat
  model : String
  deriving Repr, DecidableEq

/-- `IndividualReview['reviewerId']` is `number | 'previous-review-checker'`. -/
inductive ReviewerId where
  | num (n : Nat)
  | previousReviewChecker
  deriving Repr, DecidableEq

/-- `IndividualReview` from types.ts (the `debug` trace is omitted: it is
write-only logging data never read by the pipeline). -/
structure IndividualReview where
  reviewerId : ReviewerId
  content : String
  usage : TokenUsage
  deriving Repr, DecidableEq

/-- `createZeroTokenUsage` from src/commands/shared/output.ts. -/
def createZeroTokenUsage (model : String) : TokenUsage :=
  { promptTokens := 0
    completionTokens := 0
    totalTokens := 0
    reasoningTokens := some 0
    model := model }

/-! ## Deterministic result ordering (review-pr.ts) -/

/-- `reviewerSortOrder` from review-pr.ts: the previous-review-checker maps
to 0, a numbered reviewer id `n` maps to `n + 1`. -/
def reviewerSortOrder : ReviewerId → Nat
  | .previousReviewChecker => 0
  | .num n => n + 1

/-- Insertion step of a stable sort by a numeric key: the new element is
placed before the first element with a strictly larger key, hence after all
earlier elements with an equal key (JS `Array.prototype.sort` is stable). -/
def sortInsert {α : Type} (key : α → Nat) (a : α) : List α → List α
  | [] => [a]
  | b :: l => if key b < key a then b :: sortInsert key a l else a :: b :: l

/-- Stable sort by a numeric key, modelling
`arr.sort((a, b) => key(a) - key(b))`. -/
def sortByKey {α : Type} (key : α → Nat) : List α → List α
  | [] => []
  | a :: l => sortInsert key a (sortByKey key l)

/-- `successfulReviews.sort((a, b) => reviewerSortOrder(a.reviewerId) -
reviewerSortOrder(b.reviewerId))` from review-pr.ts. -/
def sortSuccessfulReviews (reviews : List IndividualReview) : List IndividualReview :=
  sortByKey (fun r => reviewerSortOrder r.reviewerId) reviews

lemma sortInsert_perm {α : Type} (key : α → Nat) (a : α) (l : List α) :
    (sortInsert key a l).Perm (a :: l) := by
  induction l with
  | nil => simp [sortInsert]
  | cons b l ih =>
    simp only [sortInsert]
    split
    · exact (ih.cons b).trans (List.Perm.swap a b l)
    · exact List.Perm.refl _

lemma sortByKey_perm {α : Type} (key : α → Nat) (l : List α) :
    (sortByKey key l).Perm l := by
  induction l with
  | nil => simp [sortByKey]
  | cons a l ih =>
    exact (sortInsert_perm key a (sortByKey key l)).trans (ih.cons a)

lemma sortInsert_pairwise {α : Type} (key : α → Nat) (a : α) (l : List α)
    (h : l.Pairwise (fun x y => key x ≤ key y)) :
    (sortInsert key a l).Pairwise (fun x y => key x ≤ key y) := by
  induction l with
  | nil => simp [sortInsert]
  | cons b l ih =>
    rw [List.pairwise_cons] at h
    obtain ⟨hb, hl⟩ := h
    simp only [sortInsert]
    split
    · rename_i hlt
      rw [List.pairwise_cons]
      refine ⟨?_, ih hl⟩
      intro x hx
      rw [(sortInsert_perm key a l).mem_iff, List.mem_cons] at hx
      rcases hx with rfl | hx
      · exact Nat.le_of_lt hlt
      · exact hb x hx
    · rename_i hge
      rw [List.pairwise_cons]
      refine ⟨?_, List.pairwise_cons.mpr ⟨hb, hl⟩⟩
      intro x hx
      rw [List.mem_cons] at hx
      rcases hx with rfl | hx
      · exact Nat.le_of_not_lt hge
      · exact (Nat.le_of_not_lt hge).trans (hb x hx)

lemma sortByKey_pairwise {α : Type} (key : α → Nat) (l : List α) :
    (sortByKey key l).Pairwise (fun x y => key x ≤ key y) := by
  induction l with
  | nil => simp [sortByKey]
  | cons a l ih => exact sortInsert_pairwise key a (sortByKey key l) ih

/-- Sample review used by concrete ordering examples. -/
def mkReview (id : ReviewerId) : IndividualReview :=
  { reviewerId := id
    content := "review content"
    usage := { promptTokens := 10
               completionTokens := 5
               totalTokens := 15
               reasoningTokens := none
               model := "m" } }

/-- C3: the collected successful reviews are reordered into a permutation
sorted by `reviewerSortOrder` (the previous-review-checker key 0 first, then
numbered reviewers ascending), and on ids [3, 1, PreviousCheck, 2] the
result order is [PreviousCheck, 1, 2, 3].  The lexical tie-break clause is
vacuous: distinct ids always have distinct `reviewerSortOrder` keys. -/
theorem sortSuccessfulReviews_ordering :
    (∀ l : List IndividualReview, (sortSuccessfulReviews l).Perm l) ∧
    (∀ l : List IndividualReview,
      (sortSuccessfulReviews l).Pairwise
        (fun a b => reviewerSortOrder a.reviewerId ≤ reviewerSortOrder b.reviewerId)) ∧
    (sortSuccessfulReviews
        [mkReview (.num 3), mkReview (.num 1),
         mkReview .previousReviewChecker, mkReview (.num 2)]).map
      (fun r => r.reviewerId) =
      [.previousReviewChecker, .num 1, .num 2, .num 3] := by
  refine ⟨?_, ?_, ?_⟩
  · intro l
    exact sortByKey_perm _ l
  · intro l
    exact sortByKey_pairwise _ l
  · decide

/-! ## Provider queue results (review-pr.ts, provider-queue dispatch)

`createAsyncQueueWithMeta` is an external library; its contract is that every
submitted task terminates either in `queue.completions` (promise fulfilled,
carrying the task's return value and its metadata) or in `queue.failures`
(promise rejected, carrying the error and the metadata), and `queue.onIdle()`
resolves once all tasks are terminal.  A task outcome is therefore modelled
as a sum, and the two queue lists as projections of the submitted task list.
The task functions return `IndividualReview | null` (the
previous-review-checker resolves `null` in its no-op paths). -/

inductive TaskOutcome where
  | fulfilled (value : Option IndividualReview)
  | rejected (error : String)
  deriving Repr, DecidableEq

/-- One task submitted to a provider queue: the metadata passed to
`queue.resultifyAdd` (`reviewerId`) plus the terminal outcome of the task
function. -/
structure QueueTask where
  reviewerId : ReviewerId
  outcome : TaskOutcome
  deriving Repr, DecidableEq

/-- `queue.completions.map((completion) => completion.value)`: values of the
fulfilled tasks, in completion order (modelled in submission order). -/
def queueCompletionValues (tasks : List QueueTask) : List (Option IndividualReview) :=
  tasks.filterMap fun t =>
    match t.outcome with
    | .fulfilled v => some v
    | .rejected _ => none

/-- `queue.failures.map((failure) => ({reviewerId: failure.meta.reviewerId,
error: failure.error}))`. -/
def queueFailures (tasks : List QueueTask) : List (ReviewerId × String) :=
  tasks.filterMap fun t =>
    match t.outcome with
    | .fulfilled _ => none
    | .rejected e => some (t.reviewerId, e)

/-- `ProviderQueueResult` from review-pr.ts. -/
structure ProviderQueueResult where
  providerId : String
  reviews : List IndividualReview
  failures : List (ReviewerId × String)
  deriving Repr, DecidableEq

/-- The per-provider result mapping built in `queue.onIdle().then(...)`:
`reviews` keeps the non-null completion values, `failures` keeps the
rejections. -/
def providerQueueResult (providerId : String) (tasks : List QueueTask) :
    ProviderQueueResult :=
  { providerId := providerId
    reviews := (queueCompletionValues tasks).filterMap id
    failures := queueFailures tasks }

/-- Task ids found in a provider's success result set. -/
def successTaskIds (r : ProviderQueueResult) : List ReviewerId :=
  r.reviews.map fun rev => rev.reviewerId

/-- Task ids found in a provider's failure result set. -/
def failureTaskIds (r : ProviderQueueResult) : List ReviewerId :=
  r.failures.map fun f => f.1

/-- Task ids submitted to a provider's queue. -/
def submittedTaskIds (tasks : List QueueTask) : List ReviewerId :=
  tasks.map fun t => t.reviewerId

lemma providerQueueResult_reviews (providerId : String) (tasks : List QueueTask) :
    (providerQueueResult providerId tasks).reviews =
      tasks.filterMap fun t =>
        match t.outcome with
        | .fulfilled (some r) => some r
        | .fulfilled none => none
        | .rejected _ => none := by
  induction tasks with
  | nil => rfl
  | cons t rest ih =>
    simp only [providerQueueResult, queueCompletionValues, List.filterMap_cons] at ih ⊢
    rcases t.outcome with v | e
    · rcases v with _ | r
      · simpa using ih
      · simpa using ih
    · simpa using ih

lemma mem_successTaskIds_iff (providerId : String) (tasks : List QueueTask)
    (id : ReviewerId) :
    id ∈ successTaskIds (providerQueueResult providerId tasks) ↔
      ∃ t ∈ tasks, ∃ r, t.outcome = .fulfilled (some r) ∧ r.reviewerId = id := by
  rw [successTaskIds, providerQueueResult_reviews, List.mem_map]
  constructor
  · rintro ⟨r, hr, rfl⟩
    rw [List.mem_filterMap] at hr
    obtain ⟨t, ht, hmatch⟩ := hr
    refine ⟨t, ht, r, ?_, rfl⟩
    rcases houtcome : t.outcome with v | e
    · rcases v with _ | r'
      · rw [houtcome] at hmatch
        simp at hmatch
      · rw [houtcome] at hmatch
        simp only [Option.some.injEq] at hmatch
        rw [hmatch]
    · rw [houtcome] at hmatch
      simp at hmatch
  · rintro ⟨t, ht, r, houtcome, hid⟩
    refine ⟨r, ?_, hid⟩
    rw [List.mem_filterMap]
    exact ⟨t, ht, by rw [houtcome]⟩

lemma mem_failureTaskIds_iff (providerId : String) (tasks : List QueueTask)
    (id : ReviewerId) :
    id ∈ failureTaskIds (providerQueueResult providerId tasks) ↔
      ∃ t ∈ tasks, ∃ e, t.outcome = .rejected e ∧ t.reviewerId = id := by
  rw [failureTaskIds, providerQueueResult, queueFailures]
  simp only [List.map_filterMap, List.mem_filterMap]
  constructor
  · rintro ⟨t, ht, hmatch⟩
    rcases houtcome : t.outcome with v | e
    · rw [houtcome] at hmatch
      simp at hmatch
    · rw [houtcome] at hmatch
      simp at hmatch
      exact ⟨t, ht, e, houtcome, hmatch⟩
  · rintro ⟨t, ht, e, houtcome, hid⟩
    refine ⟨t, ht, ?_⟩
    rw [houtcome]
    simpa using hid

/-- C1 counterexample: a dispatched previous-review-checker task that
fulfills with `null` (no previous review found, unparsable previous review,
swallowed model error, or the no-outstanding-issues sentinel) is dropped by
the `.filter((review) => review !== null)` step, so its task id lands in
neither the success nor the failure result set of its provider partition. -/
theorem previousCheck_null_task_in_neither_result_set :
    ReviewerId.previousReviewChecker ∈
      submittedTaskIds [⟨.previousReviewChecker, .fulfilled none⟩] ∧
    ReviewerId.previousReviewChecker ∉
      successTaskIds (providerQueueResult "openai.responses"
        [⟨.previousReviewChecker, .fulfilled none⟩]) ∧
    ReviewerId.previousReviewChecker ∉
      failureTaskIds (providerQueueResult "openai.responses"
        [⟨.previousReviewChecker, .fulfilled none⟩]) := by
  decide

/-- C1 (amended): once a provider queue is idle, every submitted task whose
promise fulfilled with a non-null review is in the success set and not the
failure set, every task whose promise rejected is in the failure set and not
the success set, and a task that fulfilled with `null` (only the
previous-review-checker does this) is in neither.  Metadata consistency
(`hmeta`) reflects that the task functions return a review carrying the same
reviewer id as the queue metadata. -/
theorem provider_queue_task_partition (providerId : String)
    (tasks : List QueueTask)
    (hnodup : (submittedTaskIds tasks).Nodup)
    (hmeta : ∀ t ∈ tasks, ∀ r : IndividualReview,
      t.outcome = .fulfilled (some r) → r.reviewerId = t.reviewerId) :
    ∀ t ∈ tasks,
      ((∃ r, t.outcome = .fulfilled (some r)) →
        t.reviewerId ∈ successTaskIds (providerQueueResult providerId tasks) ∧
        t.reviewerId ∉ failureTaskIds (providerQueueResult providerId tasks)) ∧
      ((∃ e, t.outcome = .rejected e) →
        t.reviewerId ∈ failureTaskIds (providerQueueResult providerId tasks) ∧
        t.reviewerId ∉ successTaskIds (providerQueueResult providerId tasks)) ∧
      (t.outcome = .fulfilled none →
        t.reviewerId ∉ successTaskIds (providerQueueResult providerId tasks) ∧
        t.reviewerId ∉ failureTaskIds (providerQueueResult providerId tasks)) := by
  have hinj : ∀ t ∈ tasks, ∀ t' ∈ tasks, t.reviewerId = t'.reviewerId → t = t' := by
    intro t ht t' ht' hid
    exact List.inj_on_of_nodup_map hnodup ht ht' hid
  intro t ht
  refine ⟨?_, ?_, ?_⟩
  · rintro ⟨r, hr⟩
    constructor
    · rw [mem_successTaskIds_iff]
      exact ⟨t, ht, r, hr, hmeta t ht r hr⟩
    · rw [mem_failureTaskIds_iff]
      rintro ⟨t', ht', e, houtcome', hid'⟩
      have := hinj t' ht' t ht hid'
      subst this
      rw [hr] at houtcome'
      exact TaskOutcome.noConfusion houtcome'
  · rintro ⟨e, he⟩
    constructor
    · rw [mem_failureTaskIds_iff]
      exact ⟨t, ht, e, he, rfl⟩
    · rw [mem_successTaskIds_iff]
      rintro ⟨t', ht', r, houtcome', hid'⟩
      have hrid : r.reviewerId = t'.reviewerId := hmeta t' ht' r houtcome'
      have : t' = t := hinj t' ht' t ht (by rw [← hrid, hid'])
      subst this
      rw [he] at houtcome'
      exact TaskOutcome.noConfusion houtcome'
  · intro hnull
    constructor
    · rw [mem_successTaskIds_iff]
      rintro ⟨t', ht', r, houtcome', hid'⟩
      have hrid : r.reviewerId = t'.reviewerId := hmeta t' ht' r houtcome'
      have : t' = t := hinj t' ht' t ht (by rw [← hrid, hid'])
      subst this
      rw [hnull] at houtcome'
      simp at houtcome'
    · rw [mem_failureTaskIds_iff]
      rintro ⟨t', ht', e, houtcome', hid'⟩
      have : t' = t := hinj t' ht' t ht hid'
      subst this
      rw [hnull] at houtcome'
      exact TaskOutcome.noConfusion houtcome'

/-- Concrete queue for the C1 witness: one fulfilled reviewer, one rejected
reviewer, one previous-review-checker fulfilled with `null`. -/
def witnessQueueTasks : List QueueTask :=
  [⟨.num 1, .fulfilled (some (mkReview (.num 1)))⟩,
   ⟨.num 2, .rejected "network error"⟩,
   ⟨.previousReviewChecker, .fulfilled none⟩]

/-- C1 witness: the partition theorem applied to `witnessQueueTasks`. -/
theorem provider_queue_task_partition_witness :
    ReviewerId.num 1 ∈
      successTaskIds (providerQueueResult "openai.responses" witnessQueueTasks) ∧
    ReviewerId.num 1 ∉
      failureTaskIds (providerQueueResult "openai.responses" witnessQueueTasks) := by
  have hmeta : ∀ t ∈ witnessQueueTasks, ∀ r : IndividualReview,
      t.outcome = TaskOutcome.fulfilled (some r) → r.reviewerId = t.reviewerId := by
    intro t ht r hout
    simp only [witnessQueueTasks, List.mem_cons, List.not_mem_nil, or_false] at ht
    rcases ht with rfl | rfl | rfl
    · have hout' : TaskOutcome.fulfilled (some (mkReview (.num 1))) =
        TaskOutcome.fulfilled (some r) := hout
      injection hout' with h1
      injection h1 with h2
      rw [← h2]
      rfl
    · exact TaskOutcome.noConfusion hout
    · have hout' : TaskOutcome.fulfilled (none : Option IndividualReview) =
        TaskOutcome.fulfilled (some r) := hout
      injection hout' with h1
      exact Option.noConfusion h1
  have h := provider_queue_task_partition "openai.responses" witnessQueueTasks
    (by decide)
    hmeta
    ⟨.num 1, .fulfilled (some (mkReview (.num 1)))⟩
    (by decide)
  exact h.1 ⟨mkReview (.num 1), rfl⟩

/-! ## Validated issues (reviewer.ts) -/

/-- Issue categories from the zod schema `validatedReviewSchema`. -/
inductive IssueCategory where
  | critical
  | possible
  | suggestion
  | notApplicableOrFalsePositive
  deriving Repr, DecidableEq

/-- One `{path, line}` entry of an issue's `files` array. -/
structure IssueFileRef where
  path : String
  line : Option Nat
  deriving Repr, DecidableEq

/-- `ReviewIssue` from types.ts / the validator's structured output. -/
structure ReviewIssue where
  category : IssueCategory
  files : List IssueFileRef
  description : String
  currentCode : Option String
  suggestedFix : Option String
  deriving Repr, DecidableEq

/-- `normalizeValidatedIssues` from reviewer.ts: drop every issue whose
category is `not-applicable-or-false-positive`.  The subsequent `.map` only
rewrites `undefined` to `null` in `currentCode`/`suggestedFix`; with both
modelled as `none` it is the identity, so it contributes nothing here. -/
def normalizeValidatedIssues (issues : List ReviewIssue) : List ReviewIssue :=
  issues.filter fun issue => issue.category != .notApplicableOrFalsePositive

/-- The validator model's parsed structured output
(`result.value.experimental_output`). -/
structure ValidatorOutput where
  issues : List ReviewIssue
  summary : String
  deriving Repr, DecidableEq

/-- `ValidatedReview` from types.ts (without the write-only `debug` trace). -/
structure ValidatedReview where
  issues : List ReviewIssue
  summary : String
  usage : TokenUsage
  deriving Repr, DecidableEq

/-- The `ValidatedReview` assembled at the end of `reviewValidator`:
`issues` is the structured output passed through `normalizeValidatedIssues`,
`summary` is forwarded, `usage` comes from the model call. -/
def reviewValidatorResult (raw : ValidatorOutput) (usage : TokenUsage) :
    ValidatedReview :=
  { issues := normalizeValidatedIssues raw.issues
    summary := raw.summary
    usage := usage }

/-- C9: no issue categorized `not-applicable-or-false-positive` ever appears
in the `ValidatedReview` returned by the validation stage. -/
theorem validatedReview_no_discarded_issue (raw : ValidatorOutput)
    (usage : TokenUsage) :
    ∀ issue ∈ (reviewValidatorResult raw usage).issues,
      issue.category ≠ .notApplicableOrFalsePositive := by
  intro issue hmem
  have hmem' : issue ∈ raw.issues.filter
      (fun i => i.category != .notApplicableOrFalsePositive) := hmem
  rw [List.mem_filter] at hmem'
  simpa using hmem'.2

/-- Sample critical issue for the C9 witness. -/
def sampleCriticalIssue : ReviewIssue :=
  { category := .critical
    files := [{ path := "src/main.ts", line := some 3 }]
    description := "missing null check"
    currentCode := some "x.y"
    suggestedFix := some "x?.y" }

/-- Sample discarded issue for the C9 witness. -/
def sampleDiscardedIssue : ReviewIssue :=
  { category := .notApplicableOrFalsePositive
    files := []
    description := "false positive"
    currentCode := none
    suggestedFix := none }

/-- C9 witness: the no-discard theorem applied to a concrete validator
output containing a critical and a discarded issue. -/
theorem validatedReview_no_discarded_issue_witness :
    sampleCriticalIssue ∈
      (reviewValidatorResult
        { issues := [sampleCriticalIssue, sampleDiscardedIssue]
          summary := "s" }
        (createZeroTokenUsage "v")).issues ∧
    sampleCriticalIssue.category ≠ .notApplicableOrFalsePositive := by
  refine ⟨by decide, ?_⟩
  exact validatedReview_no_discarded_issue
    { issues := [sampleCriticalIssue, sampleDiscardedIssue], summary := "s" }
    (createZeroTokenUsage "v") sampleCriticalIssue (by decide)

/-! ## Concurrency configuration validation (review-pr.ts) -/

/-- The JS numbers relevant to concurrency ceilings: `Number.POSITIVE_INFINITY`
or a finite value (modelled as a rational, enough to express non-integers
such as 1.5). -/
inductive JSNumber where
  | posInfinity
  | finite (value : ℚ)
  deriving Repr, DecidableEq

/-- The literal 1.5 from the spec's examples. -/
def onePointFive : ℚ := ⟨3, 2, by decide, by decide⟩

/-- JS `Number.isInteger` (false on `Infinity`). -/
def jsIsInteger : JSNumber → Bool
  | .posInfinity => false
  | .finite q => q.den == 1

/-- JS `value > 0` for the numbers modelled here. -/
def jsGtZero : JSNumber → Bool
  | .posInfinity => true
  | .finite q => decide (0 < q)

/-- `isValidConcurrencyLimit` from review-pr.ts:
`value === Number.POSITIVE_INFINITY || (Number.isInteger(value) && value > 0)`. -/
def isValidConcurrencyLimit (value : JSNumber) : Bool :=
  value == .posInfinity || (jsIsInteger value && jsGtZero value)

/-- `ReviewConcurrencyConfig` from config.ts: a single number applied to all
providers, or a per-provider map (modelled as an association list in object
entry order, as iterated by `Object.entries`). -/
inductive ReviewConcurrencyConfig where
  | single (limit : JSNumber)
  | perProvider (limits : List (String × JSNumber))
  deriving Repr, DecidableEq

/-- Configuration errors raised through `showErrorAndExit` during
`validateConcurrencyPerProvider`. -/
inductive ConfigError where
  | invalidSingleLimit (limit : JSNumber)
  | invalidProviderLimit (providerId : String) (limit : JSNumber)
  deriving Repr, DecidableEq

instance : DecidableEq (Except ConfigError Unit) := fun a b =>
  match a, b with
  | .ok _, .ok _ => isTrue rfl
  | .ok _, .error _ => isFalse (by simp)
  | .error _, .ok _ => isFalse (by simp)
  | .error x, .error y =>
    if h : x = y then isTrue (by rw [h]) else isFalse (by simp [h])

/-- The `for (const [providerId, limit] of Object.entries(...))` loop of
`validateConcurrencyPerProvider`: `showErrorAndExit` aborts the run at the
first invalid entry, modelled as an `Except.error`. -/
def validateConcurrencyEntries :
    List (String × JSNumber) → Except ConfigError Unit
  | [] => .ok ()
  | (providerId, limit) :: rest =>
    if isValidConcurrencyLimit limit then validateConcurrencyEntries rest
    else .error (.invalidProviderLimit providerId limit)

/-- `validateConcurrencyPerProvider` from review-pr.ts. -/
def validateConcurrencyPerProvider :
    Option ReviewConcurrencyConfig → Except ConfigError Unit
  | none => .ok ()
  | some (.single limit) =>
    if isValidConcurrencyLimit limit then .ok ()
    else .error (.invalidSingleLimit limit)
  | some (.perProvider limits) => validateConcurrencyEntries limits

/-! ## The review pipeline (review-pr.ts `run`)

`reviewPipeline` models the stages of `reviewPRCommand.run` that the claims
are about, in source order: concurrency validation, the empty-diff
short-circuit, provider-queue dispatch and collection, the deterministic
sort, the zero-success gate, and the validator stage.  Task outcomes and the
validator's answer are data parameters: the run's result being independent
of them is how "no dispatch happened" and "no validator call happened" are
expressed.  The oversized-diff gates sit between the empty-diff check and
dispatch in the sources and are modelled separately (`prOversizedDiffGate`,
`localOversizedDiffGate`) because the two commands handle them differently. -/

inductive RunError where
  | config (e : ConfigError)
  | allReviewersFailed
  deriving Repr, DecidableEq

/-- What a completed run hands to formatting/output: the validated review
plus the sorted successful reviews. -/
structure PipelineOutput where
  validated : ValidatedReview
  reviews : List IndividualReview
  deriving Repr, DecidableEq

/-- Summary text of the empty-diff short-circuit in review-pr.ts. -/
def emptyDiffSummary : String :=
  "No reviewable code changes found after filtering import/export-only changes."

/-- The claim-relevant stages of `reviewPRCommand.run`. -/
def reviewPipeline (cfg : Option ReviewConcurrencyConfig) (prDiff : String)
    (providers : List (String × List QueueTask))
    (validator : List IndividualReview → ValidatorOutput × TokenUsage) :
    Except RunError PipelineOutput :=
  match validateConcurrencyPerProvider cfg with
  | .error e => .error (.config e)
  | .ok _ =>
    if jsTrim prDiff = "" then
      .ok { validated := { issues := []
                           summary := emptyDiffSummary
                           usage := createZeroTokenUsage "validator-skipped" }
            reviews := [] }
    else
      let queueResults := providers.map fun p => providerQueueResult p.1 p.2
      let successfulReviews :=
        sortSuccessfulReviews (queueResults.flatMap fun q => q.reviews)
      if successfulReviews.isEmpty then .error .allReviewersFailed
      else
        let v := validator successfulReviews
        .ok { validated := reviewValidatorResult v.1 v.2
              reviews := successfulReviews }

/-- C2 counterexample: with the map `{a: 0, b: -1}`, whose two ceilings are
both malformed, the run aborts with the error for `"a"` alone: no error is
ever raised for the malformed ceiling of `"b"`, refuting "the error is
raised for every malformed ceiling found — not just the first one". -/
theorem concurrency_validation_reports_only_first :
    ("b", JSNumber.finite (-1)) ∈
      [("a", JSNumber.finite 0), ("b", JSNumber.finite (-1))] ∧
    isValidConcurrencyLimit (.finite (-1)) = false ∧
    validateConcurrencyPerProvider
        (some (.perProvider [("a", .finite 0), ("b", .finite (-1))])) =
      .error (.invalidProviderLimit "a" (.finite 0)) ∧
    validateConcurrencyPerProvider
        (some (.perProvider [("a", .finite 0), ("b", .finite (-1))])) ≠
      .error (.invalidProviderLimit "b" (.finite (-1))) := by
  refine ⟨by decide, by decide, by decide, by decide⟩

/-- C2 (amended): any malformed ceiling in the per-provider map makes
`validateConcurrencyPerProvider` raise a configuration error synchronously,
and the error raised is the one for the first malformed entry (in
`Object.entries` order); the whole run then aborts with that configuration
error regardless of task outcomes or the validator, i.e. before any
dispatch.  The values 0, −1 and 1.5 are malformed; a positive integer and
the unbounded sentinel are valid. -/
theorem concurrency_validation_rejects_first_malformed :
    (∀ limits : List (String × JSNumber),
      (∃ x ∈ limits, isValidConcurrencyLimit x.2 = false) →
      ∃ e : ConfigError,
        validateConcurrencyPerProvider (some (.perProvider limits)) =
          .error e) ∧
    (∀ (limits : List (String × JSNumber)) (x : String × JSNumber),
      limits.find? (fun p => !isValidConcurrencyLimit p.2) = some x →
      validateConcurrencyPerProvider (some (.perProvider limits)) =
        .error (.invalidProviderLimit x.1 x.2) ∧
      ∀ (prDiff : String) (providers : List (String × List QueueTask))
        (validator : List IndividualReview → ValidatorOutput × TokenUsage),
        reviewPipeline (some (.perProvider limits)) prDiff providers
            validator =
          .error (.config (.invalidProviderLimit x.1 x.2))) ∧
    (isValidConcurrencyLimit (.finite 0) = false ∧
     isValidConcurrencyLimit (.finite (-1)) = false ∧
     isValidConcurrencyLimit (.finite onePointFive) = false ∧
     isValidConcurrencyLimit .posInfinity = true ∧
     isValidConcurrencyLimit (.finite 2) = true) := by
  have hfind : ∀ (limits : List (String × JSNumber)) (x : String × JSNumber),
      limits.find? (fun p => !isValidConcurrencyLimit p.2) = some x →
      validateConcurrencyEntries limits =
        .error (.invalidProviderLimit x.1 x.2) := by
    intro limits
    induction limits with
    | nil => intro x hx; simp [List.find?] at hx
    | cons head rest ih =>
      intro x hx
      rcases head with ⟨pid, limit⟩
      by_cases hvalid : isValidConcurrencyLimit limit = true
      · rw [List.find?_cons_of_neg _ (by simp [hvalid])] at hx
        have hrec := ih x hx
        simpa [validateConcurrencyEntries, hvalid] using hrec
      · have hvfalse : isValidConcurrencyLimit limit = false := by
          simpa using hvalid
        rw [List.find?_cons_of_pos _ (by simp [hvfalse])] at hx
        cases hx
        simp [validateConcurrencyEntries, hvfalse]
  refine ⟨?_, ?_, by decide, by decide, by decide, by decide, by decide⟩
  · intro limits hex
    obtain ⟨x, hmem, hinvalid⟩ := hex
    have hsome : (limits.find? (fun p => !isValidConcurrencyLimit p.2)).isSome := by
      rw [List.find?_isSome]
      exact ⟨x, hmem, by simp [hinvalid]⟩
    obtain ⟨y, hy⟩ := Option.isSome_iff_exists.mp hsome
    exact ⟨.invalidProviderLimit y.1 y.2,
      by simpa [validateConcurrencyPerProvider] using hfind limits y hy⟩
  · intro limits x hx
    have hval := hfind limits x hx
    have hval' : validateConcurrencyPerProvider (some (.perProvider limits)) =
        .error (.invalidProviderLimit x.1 x.2) := by
      simpa [validateConcurrencyPerProvider] using hval
    refine ⟨hval', ?_⟩
    intro prDiff providers validator
    simp [reviewPipeline, hval']

/-- C2 witness: the first-malformed theorem applied to the concrete map
`{a: 2, b: 0}`, whose first malformed ceiling is the one of `"b"`. -/
theorem concurrency_validation_rejects_first_malformed_witness :
    validateConcurrencyPerProvider
        (some (.perProvider [("a", .finite 2), ("b", .finite 0)])) =
      .error (.invalidProviderLimit "b" (.finite 0)) :=
  (concurrency_validation_rejects_first_malformed.2.1
    [("a", .finite 2), ("b", .finite 0)] ("b", .finite 0) (by decide)).1

lemma providerQueueResult_reviews_nil_of_no_success (providerId : String)
    (tasks : List QueueTask)
    (h : ∀ t ∈ tasks, ∃ e, t.outcome = .rejected e) :
    (providerQueueResult providerId tasks).reviews = [] := by
  rw [providerQueueResult_reviews]
  induction tasks with
  | nil => rfl
  | cons t rest ih =>
    obtain ⟨e, he⟩ := h t (List.mem_cons_self t rest)
    rw [List.filterMap_cons, he]
    exact ih fun t' ht' => h t' (List.mem_cons_of_mem t ht')

lemma collected_reviews_nil_of_all_rejected
    (providers : List (String × List QueueTask))
    (h : ∀ p ∈ providers, ∀ t ∈ p.2, ∃ e, t.outcome = .rejected e) :
    ((providers.map fun p => providerQueueResult p.1 p.2).flatMap
      fun q => q.reviews) = [] := by
  induction providers with
  | nil => rfl
  | cons p rest ih =>
    rw [List.map_cons, List.flatMap_cons]
    rw [providerQueueResult_reviews_nil_of_no_success p.1 p.2
      (h p (List.mem_cons_self p rest))]
    rw [List.nil_append]
    exact ih fun p' hp' => h p' (List.mem_cons_of_mem p hp')

/-- C8: when every dispatched task fails (its promise rejects), the run
aborts with the fatal all-reviewers-failed error before the validator stage:
the result is this error for every possible validator, so no validator call
is ever attempted. -/
theorem zero_success_gate_skips_validator
    (cfg : Option ReviewConcurrencyConfig) (prDiff : String)
    (providers : List (String × List QueueTask))
    (hcfg : validateConcurrencyPerProvider cfg = .ok ())
    (hdiff : jsTrim prDiff ≠ "")
    (hfail : ∀ p ∈ providers, ∀ t ∈ p.2, ∃ e, t.outcome = .rejected e) :
    ∀ validator : List IndividualReview → ValidatorOutput × TokenUsage,
      reviewPipeline cfg prDiff providers validator =
        .error .allReviewersFailed := by
  intro validator
  have hnil := collected_reviews_nil_of_all_rejected providers hfail
  simp [reviewPipeline, hcfg, hdiff, hnil, sortSuccessfulReviews, sortByKey]

/-- Constant validator answer used by witnesses that must instantiate the
validator function parameter. -/
def constValidator : List IndividualReview → ValidatorOutput × TokenUsage :=
  fun _ => ({ issues := [], summary := "summary" }, createZeroTokenUsage "none")

/-- C8 witness: one provider with one rejected reviewer task makes the run
abort with the fatal error. -/
theorem zero_success_gate_skips_validator_witness :
    reviewPipeline none "diff content"
        [("openai.responses", [⟨.num 1, .rejected "network error"⟩])]
        constValidator =
      .error .allReviewersFailed := by
  refine zero_success_gate_skips_validator none "diff content"
    [("openai.responses", [⟨.num 1, .rejected "network error"⟩])]
    rfl (by decide) ?_ constValidator
  intro p hp t ht
  rw [List.mem_singleton] at hp
  subst hp
  rw [List.mem_singleton] at ht
  subst ht
  exact ⟨"network error", rfl⟩

/-- C10: when the diff is empty or whitespace-only after filtering, the run
short-circuits to a zero-issue review whose usage is the all-zero usage
record `createZeroTokenUsage "validator-skipped"`; the result is the same
for every task-outcome assignment and every validator, so no reviewer and no
validator model call is made. -/
theorem empty_diff_short_circuit
    (cfg : Option ReviewConcurrencyConfig) (prDiff : String)
    (hcfg : validateConcurrencyPerProvider cfg = .ok ())
    (hdiff : jsTrim prDiff = "") :
    ∀ (providers : List (String × List QueueTask))
      (validator : List IndividualReview → ValidatorOutput × TokenUsage),
      reviewPipeline cfg prDiff providers validator =
        .ok { validated := { issues := []
                             summary := emptyDiffSummary
                             usage := createZeroTokenUsage "validator-skipped" }
              reviews := [] } ∧
      (createZeroTokenUsage "validator-skipped").promptTokens = 0 ∧
      (createZeroTokenUsage "validator-skipped").completionTokens = 0 ∧
      (createZeroTokenUsage "validator-skipped").totalTokens = 0 := by
  intro providers validator
  refine ⟨?_, rfl, rfl, rfl⟩
  simp [reviewPipeline, hcfg, hdiff]

/-- C10 witness: a whitespace-only diff short-circuits a concrete run with a
non-trivial task-outcome assignment and the constant validator. -/
theorem empty_diff_short_circuit_witness :
    reviewPipeline none "  \n  "
        [("openai.responses", [⟨.num 1, .fulfilled (some (mkReview (.num 1)))⟩])]
        constValidator =
      .ok { validated := { issues := []
                           summary := emptyDiffSummary
                           usage := createZeroTokenUsage "validator-skipped" }
            reviews := [] } :=
  (empty_diff_short_circuit none "  \n  " rfl (by decide)
    [("openai.responses", [⟨.num 1, .fulfilled (some (mkReview (.num 1)))⟩])]
    constValidator).1

/-! ## Previous-review check (reviewer.ts `runPreviousReviewCheck`) -/

/-- The sentinel test at the end of `runPreviousReviewCheck`: the lowercased
result text contains `"no issues found"` or
`"no issues identified in this review"`. -/
def hasNoUnresolvedIssues (text : String) : Bool :=
  let normalizedPreviousCheckContent := jsToLower text
  jsIncludes normalizedPreviousCheckContent "no issues found" ||
    jsIncludes normalizedPreviousCheckContent "no issues identified in this review"

/-- The value `runPreviousReviewCheck` resolves with after a successful model
call: `null` when the sentinel is present, otherwise the check's
`IndividualReview`.  (The function's earlier `null` returns — no previous
review, unparsable previous review, swallowed model error — are further
sources of the fulfilled-`null` outcome in the queue model.) -/
def previousCheckResult (text : String) (usage : TokenUsage) :
    Option IndividualReview :=
  if hasNoUnresolvedIssues text then none
  else some { reviewerId := .previousReviewChecker
              content := text
              usage := usage }

/-- C7 counterexample: a previous-check result with zero token usage but no
sentinel in its text is returned as a non-null review and lands in the
provider's success set: the zero-usage exclusion claimed by the spec does
not happen in the provider-queue pipeline (only the sentinel exclusion
does; a `totalTokens > 0` guard existed only in the older
`Promise.allSettled` collect path). -/
theorem previousCheck_zero_usage_not_excluded :
    previousCheckResult "Issue 1 is still present" (createZeroTokenUsage "gpt") =
      some { reviewerId := .previousReviewChecker
             content := "Issue 1 is still present"
             usage := createZeroTokenUsage "gpt" } ∧
    (createZeroTokenUsage "gpt").totalTokens = 0 ∧
    hasNoUnresolvedIssues "Issue 1 is still present" = false ∧
    successTaskIds (providerQueueResult "openai.responses"
        [⟨.previousReviewChecker,
          .fulfilled (previousCheckResult "Issue 1 is still present"
            (createZeroTokenUsage "gpt"))⟩]) =
      [.previousReviewChecker] := by
  refine ⟨by decide, by decide, by decide, by decide⟩

/-- C7 (amended): when the previous-check result text contains the
no-outstanding-issues sentinel, the check resolves `null`, so the result is
filtered out of the provider's success set and never reaches the validator
input. -/
theorem previousCheck_sentinel_excluded (text : String) (usage : TokenUsage)
    (hsentinel : hasNoUnresolvedIssues text = true) :
    previousCheckResult text usage = none ∧
    ∀ providerId : String,
      (providerQueueResult providerId
        [⟨.previousReviewChecker,
          .fulfilled (previousCheckResult text usage)⟩]).reviews = [] := by
  have hres : previousCheckResult text usage = none := by
    simp [previousCheckResult, hsentinel]
  refine ⟨hres, ?_⟩
  intro providerId
  rw [providerQueueResult_reviews, hres]
  rfl

/-- C7 witness: the sentinel theorem applied to a concrete sentinel text. -/
theorem previousCheck_sentinel_excluded_witness :
    previousCheckResult "Previous review: No issues found"
        (createZeroTokenUsage "gpt") = none :=
  (previousCheck_sentinel_excluded "Previous review: No issues found"
    (createZeroTokenUsage "gpt") (by decide)).1

/-! ## Diff compaction (diff-utils.ts `compactDiff`)

`estimateTokenCount` (the external tokenx library) and `getDiffForFiles`
(whose diff text is external git data) are abstracted as the function
parameters `tok` and `dp`; `compactDiff` below is otherwise a direct
transcription of the loop in diff-utils.ts. -/

/-- One entry of the configured `diffCompactor` list: a name, a file filter,
and the optional `ignoreAgentsMd` flag (absent modelled as `false`). -/
structure CompactionStep where
  name : String
  filterFiles : List String → List String
  ignoreAgentsMd : Bool

/-- The `{files, diff, ignoreAgentsMd}` record returned by `compactDiff`. -/
structure CompactResult where
  files : List String
  diff : String
  ignoreAgentsMd : Bool
  deriving Repr, DecidableEq

/-- The skip decision of one loop iteration of `compactDiff`: `none` when
the step is skipped (`filteredFiles.length === 0` or
`filteredFiles.length === currentFiles.length`), otherwise the filtered
list the diff is regenerated from. -/
def compactStepAction (step : CompactionStep) (currentFiles : List String) :
    Option (List String) :=
  let filteredFiles := step.filterFiles currentFiles
  if filteredFiles.length = 0 then none
  else if filteredFiles.length = currentFiles.length then none
  else some filteredFiles

/-- The `for (const step of steps)` loop of `compactDiff`: on an applied
step the diff is regenerated (`dp`), the state updated, the flag accumulated,
and the loop breaks as soon as the budget is met. -/
def compactDiffGo (tok : String → Nat) (dp : List String → String)
    (maxDiffTokens : Nat) :
    List String → String → Bool → List CompactionStep → CompactResult
  | currentFiles, currentDiff, ignoreAgentsMd, [] =>
    ⟨currentFiles, currentDiff, ignoreAgentsMd⟩
  | currentFiles, currentDiff, ignoreAgentsMd, step :: rest =>
    match compactStepAction step currentFiles with
    | none =>
      compactDiffGo tok dp maxDiffTokens currentFiles currentDiff
        ignoreAgentsMd rest
    | some filteredFiles =>
      let newDiff := dp filteredFiles
      let newIgnore := ignoreAgentsMd || step.ignoreAgentsMd
      if tok newDiff ≤ maxDiffTokens then ⟨filteredFiles, newDiff, newIgnore⟩
      else
        compactDiffGo tok dp maxDiffTokens filteredFiles newDiff newIgnore rest

/-- `compactDiff` from diff-utils.ts: immediate return when the diff already
fits, otherwise the step loop.  It always returns a result record — it
raises no failure of its own when the steps are exhausted over budget. -/
def compactDiff (tok : String → Nat) (dp : List String → String)
    (changedFiles : List String) (diff : String) (maxDiffTokens : Nat)
    (steps : List CompactionStep) : CompactResult :=
  if tok diff ≤ maxDiffTokens then ⟨changedFiles, diff, false⟩
  else compactDiffGo tok dp maxDiffTokens changedFiles diff false steps

/-- Outcome of an oversized-diff gate: keep running, or abort the process. -/
inductive GateOutcome where
  | continueRun
  | exitFailure
  deriving Repr, DecidableEq

/-- The oversized-diff gate of `runLocalReviewChangesWorkflow`: over budget
it asks `Continue anyway? ...` and continues exactly when the user confirms
(`process.exit(1)` otherwise). -/
def localOversizedDiffGate (diffTokens maxDiffTokens : Nat)
    (userConfirms : Bool) : GateOutcome :=
  if diffTokens > maxDiffTokens then
    if userConfirms then .continueRun else .exitFailure
  else .continueRun

/-- The oversized-diff gate of `reviewPRCommand.run`: over budget it calls
`showErrorAndExit` unconditionally. -/
def prOversizedDiffGate (diffTokens maxDiffTokens : Nat) : GateOutcome :=
  if diffTokens > maxDiffTokens then .exitFailure else .continueRun

/-- Concrete compaction step for the C4 counterexample: keep only file a. -/
def stepDropToA : CompactionStep :=
  { name := "drop to a", filterFiles := fun _ => ["a"], ignoreAgentsMd := false }

/-- Concrete diff provider for the C4 counterexample: every regeneration
yields a three-token diff. -/
def dpThree : List String → String := fun _ => "xxx"

/-- C4 counterexample: with budget 1, the only step is applied, the steps
are exhausted, and the regenerated diff still has 3 > 1 tokens — yet
`compactDiff` returns the oversized result without any failure, and the
local workflow's gate lets the run continue with that oversized diff as soon
as the user confirms. -/
theorem compaction_exhausted_can_continue_after_confirm :
    compactDiff String.length dpThree ["a", "b"] "xxxxx" 1 [stepDropToA] =
      ⟨["a"], "xxx", false⟩ ∧
    String.length "xxx" > 1 ∧
    localOversizedDiffGate (String.length "xxx") 1 true = .continueRun := by
  refine ⟨by decide, by decide, by decide⟩

/-- C4 (amended): an over-budget diff always aborts the PR flow with an
error, and aborts the local flow exactly when the user declines the
explicit confirmation — so the run continues with an oversized-but-accepted
diff only on explicit user confirmation, never silently. -/
theorem oversized_diff_gates (diffTokens maxDiffTokens : Nat)
    (h : diffTokens > maxDiffTokens) :
    prOversizedDiffGate diffTokens maxDiffTokens = .exitFailure ∧
    localOversizedDiffGate diffTokens maxDiffTokens false = .exitFailure ∧
    localOversizedDiffGate diffTokens maxDiffTokens true = .continueRun := by
  refine ⟨?_, ?_, ?_⟩ <;>
    simp [prOversizedDiffGate, localOversizedDiffGate, h]

/-- C4 witness: the gates at 61000 tokens against the 60000 budget. -/
theorem oversized_diff_gates_witness :
    prOversizedDiffGate 61000 60000 = .exitFailure ∧
    localOversizedDiffGate 61000 60000 false = .exitFailure ∧
    localOversizedDiffGate 61000 60000 true = .continueRun :=
  oversized_diff_gates 61000 60000 (by decide)

/-- Concrete compaction step for the C5 counterexample: replace the file
list by a different list of the same length. -/
def stepSwapToAC : CompactionStep :=
  { name := "swap", filterFiles := fun _ => ["a", "c"], ignoreAgentsMd := false }

/-- Concrete diff provider whose output would be visible if a regeneration
happened. -/
def dpZZ : List String → String := fun _ => "zz"

/-- C5 counterexample: a step returning `["a", "c"]` for current files
`["a", "b"]` — same length, different membership — is skipped (no
regeneration, state untouched) although the claim requires regeneration for
a membership-changing list: the code compares lengths only. -/
theorem same_length_step_skipped_despite_membership_change :
    compactStepAction stepSwapToAC ["a", "b"] = none ∧
    stepSwapToAC.filterFiles ["a", "b"] ≠ [] ∧
    "c" ∈ stepSwapToAC.filterFiles ["a", "b"] ∧
    "c" ∉ (["a", "b"] : List String) ∧
    compactDiffGo String.length dpZZ 1 ["a", "b"] "xxx" false [stepSwapToAC] =
      ⟨["a", "b"], "xxx", false⟩ := by
  refine ⟨by decide, by decide, by decide, by decide, by decide⟩

/-- C5 (amended): a compaction step is skipped exactly when its filtered
list is empty or has the same length as the current list (membership is not
inspected), and a skipped step leaves the file list, the diff and the flag
untouched, with no diff-regeneration call. -/
theorem compaction_step_skip_iff (step : CompactionStep)
    (currentFiles : List String) :
    (compactStepAction step currentFiles = none ↔
      (step.filterFiles currentFiles).length = 0 ∨
      (step.filterFiles currentFiles).length = currentFiles.length) ∧
    ∀ (tok : String → Nat) (dp : List String → String)
      (maxDiffTokens : Nat) (currentDiff : String) (ignoreAgentsMd : Bool)
      (rest : List CompactionStep),
      compactStepAction step currentFiles = none →
      compactDiffGo tok dp maxDiffTokens currentFiles currentDiff
          ignoreAgentsMd (step :: rest) =
        compactDiffGo tok dp maxDiffTokens currentFiles currentDiff
          ignoreAgentsMd rest := by
  constructor
  · simp only [compactStepAction]
    split_ifs with h1 h2
    · simp [h1]
    · simp [h1, h2]
    · simp [h1, h2]
  · intro tok dp maxDiffTokens currentDiff ignoreAgentsMd rest hskip
    simp only [compactDiffGo, hskip]

/-- Concrete compaction step for the C5 witness: filter out every file. -/
def stepDropAll : CompactionStep :=
  { name := "drop all", filterFiles := fun _ => [], ignoreAgentsMd := false }

/-- C5 witness: the skip characterization applied to a step that empties
the file list. -/
theorem compaction_step_skip_iff_witness :
    compactStepAction stepDropAll ["a"] = none ∧
    compactDiffGo String.length dpZZ 5 ["a"] "dd" false [stepDropAll] =
      compactDiffGo String.length dpZZ 5 ["a"] "dd" false [] := by
  have h := compaction_step_skip_iff stepDropAll ["a"]
  exact ⟨h.1.mpr (Or.inl (by decide)),
    h.2 String.length dpZZ 5 "dd" false []
      (h.1.mpr (Or.inl (by decide)))⟩

/-- Concrete compaction step for the C6 counterexample: a filter that adds
files. -/
def stepAddFiles : CompactionStep :=
  { name := "add files", filterFiles := fun _ => ["a", "b", "c"]
    ignoreAgentsMd := false }

/-- Diff provider concatenating the file names, so a larger file set yields
a larger diff (monotone in the file set, like a real git diff). -/
def dpJoin : List String → String := String.join

/-- C6 counterexample: a step whose filter enlarges the file list from
`["a"]` to `["a", "b", "c"]` is applied (its length differs) and the
regenerated diff has 3 tokens where the previous diff had 2: the token
count increases across an applied step; nothing in `compactDiff` enforces a
decrease. -/
theorem compaction_token_count_can_increase :
    compactDiff String.length dpJoin ["a"] "aa" 1 [stepAddFiles] =
      ⟨["a", "b", "c"], "abc", false⟩ ∧
    String.length "abc" > String.length "aa" := by
  refine ⟨by decide, by decide⟩

lemma compactDiffGo_tokens_le (tok : String → Nat) (dp : List String → String)
    (maxDiffTokens : Nat) :
    ∀ (steps : List CompactionStep) (currentFiles : List String)
      (currentDiff : String) (ignoreAgentsMd : Bool),
      (∀ s ∈ steps, ∀ fs : List String,
        tok (dp (s.filterFiles fs)) ≤ tok (dp fs)) →
      tok (dp currentFiles) ≤ tok currentDiff →
      tok (compactDiffGo tok dp maxDiffTokens currentFiles currentDiff
        ignoreAgentsMd steps).diff ≤ tok currentDiff := by
  intro steps
  induction steps with
  | nil =>
    intro currentFiles currentDiff ignoreAgentsMd hmono hinv
    exact Nat.le_refl _
  | cons step rest ih =>
    intro currentFiles currentDiff ignoreAgentsMd hmono hinv
    cases haction : compactStepAction step currentFiles with
    | none =>
      simp only [compactDiffGo, haction]
      exact ih currentFiles currentDiff ignoreAgentsMd
        (fun s hs => hmono s (List.mem_cons_of_mem step hs)) hinv
    | some filteredFiles =>
      have hfiltered : filteredFiles = step.filterFiles currentFiles := by
        simp only [compactStepAction] at haction
        split_ifs at haction
        exact (Option.some.injEq _ _ ▸ haction).symm
      have hle : tok (dp filteredFiles) ≤ tok currentDiff := by
        rw [hfiltered]
        exact (hmono step (List.mem_cons_self step rest) currentFiles).trans hinv
      simp only [compactDiffGo, haction]
      by_cases hbudget : tok (dp filteredFiles) ≤ maxDiffTokens
      · simp only [hbudget, if_pos]
        exact hle
      · simp only [hbudget, if_neg, if_false]
        exact (ih filteredFiles (dp filteredFiles)
          (ignoreAgentsMd || step.ignoreAgentsMd)
          (fun s hs => hmono s (List.mem_cons_of_mem step hs))
          (Nat.le_refl _)).trans hle

/-- C6 (amended): the token count never increases across applied steps
provided each step's regenerated diff never exceeds the diff regenerated
from the step's input (true when filters only remove files and the diff
provider is monotone in the file set); this holds from any reachable loop
state, hence step-over-step, and for the full `compactDiff`. -/
theorem compaction_tokens_nonincreasing_of_monotone
    (tok : String → Nat) (dp : List String → String)
    (maxDiffTokens : Nat) (steps : List CompactionStep)
    (hmono : ∀ s ∈ steps, ∀ fs : List String,
      tok (dp (s.filterFiles fs)) ≤ tok (dp fs)) :
    (∀ (currentFiles : List String) (currentDiff : String)
      (ignoreAgentsMd : Bool),
      tok (dp currentFiles) ≤ tok currentDiff →
      tok (compactDiffGo tok dp maxDiffTokens currentFiles currentDiff
        ignoreAgentsMd steps).diff ≤ tok currentDiff) ∧
    ∀ (changedFiles : List String) (diff : String),
      tok (dp changedFiles) ≤ tok diff →
      tok (compactDiff tok dp changedFiles diff maxDiffTokens steps).diff ≤
        tok diff := by
  constructor
  · intro currentFiles currentDiff ignoreAgentsMd hinv
    exact compactDiffGo_tokens_le tok dp maxDiffTokens steps currentFiles
      currentDiff ignoreAgentsMd hmono hinv
  · intro changedFiles diff hinv
    unfold compactDiff
    by_cases hfit : tok diff ≤ maxDiffTokens
    · simp only [hfit, if_pos]
      exact Nat.le_refl _
    · simp only [hfit, if_neg, if_false]
      exact compactDiffGo_tokens_le tok dp maxDiffTokens steps changedFiles
        diff false hmono hinv

/-- Diff provider for the C6 witness: regeneration always yields the empty
diff, trivially monotone. -/
def dpEmpty : List String → String := fun _ => ""

/-- C6 witness: the non-increase theorem applied to a concrete run. -/
theorem compaction_tokens_nonincreasing_of_monotone_witness :
    String.length
        (compactDiff String.length dpEmpty ["a", "b"] "abcd" 1
          [stepDropToA]).diff ≤
      String.length "abcd" :=
  (compaction_tokens_nonincreasing_of_monotone String.length dpEmpty 1
    [stepDropToA] (fun _ _ _ => Nat.le_refl 0)).2 ["a", "b"] "abcd" (by decide)
